import Mathlib

/-!
# Verification of the AlphaPilot comps backend core

A shallow embedding, in Lean 4, of the ticker-extraction / financial-multiple
pipeline of the `backend/app` package:

* `parse_tickers_from_text`  (yfinance_service.py, regex Strategy A),
* `calculate_ev` / `calculate_multiples` (yfinance_service.py),
* the LLM ticker validation loop (openai_service.extract_tickers_from_text),
* `get_stock_data` (yfinance_service.py, per-symbol isolated batch fetch),
* the `/analyze` and `/chat` endpoint control flow (endpoints.py).

Modelling conventions:

* Python strings are embedded as `List Char`; `str.upper` / `str.lower` /
  `str.strip` / `str.isalpha` and the regex character classes are modelled at
  their ASCII semantics, which is the range the program actually exercises
  (ticker symbols are `[A-Z]{1,5}`).
* Python floats are embedded as exact rationals `ℚ`; the arithmetic in
  `calculate_multiples` (add, subtract, max, guarded division) is exact on all
  the spec's example values.
* External collaborators (the OpenAI client, the Yahoo Finance fetch) are
  opaque oracles passed as function arguments; an exception raised by an
  oracle is a distinguished constructor of its result type, mirroring the
  `try/except` structure of the callers.
* Mutable state (the Gateway's process cache) is passed explicitly.
-/

/-! ## Character classes (ASCII semantics of the Python predicates) -/

/-- `[A-Z]`: the character class of the ticker regex `\b[A-Z]{1,5}\b`. -/
def isUpperLetter (c : Char) : Bool :=
  65 ≤ c.toNat && c.toNat ≤ 90

/-- `[a-z]`. -/
def isLowerLetter (c : Char) : Bool :=
  97 ≤ c.toNat && c.toNat ≤ 122

/-- `[0-9]`. -/
def isDigitChar (c : Char) : Bool :=
  48 ≤ c.toNat && c.toNat ≤ 57

/-- A word character in the sense of the regex metacharacter `\w`
(and hence of the boundary assertion `\b`): letter, digit or underscore. -/
def isWordChar (c : Char) : Bool :=
  isUpperLetter c || isLowerLetter c || isDigitChar c || c == '_'

/-- Alphabetic character, as tested by Python's `str.isalpha` (ASCII part). -/
def isAlphaChar (c : Char) : Bool :=
  isUpperLetter c || isLowerLetter c

/-- ASCII whitespace, as stripped by Python's `str.strip()`:
space, tab, newline, vertical tab, form feed, carriage return. -/
def isSpaceChar (c : Char) : Bool :=
  c.toNat == 32 || (9 ≤ c.toNat && c.toNat ≤ 13)

/-- `str.upper()` on one character (ASCII part): Lean core's `Char.toUpper`
has exactly this behaviour, we reuse it. -/
theorem toUpper_eq_self_of_upper (c : Char) (h : isUpperLetter c = true) :
    c.toUpper = c := by
  have h' : 65 ≤ c.toNat ∧ c.toNat ≤ 90 := by
    simpa [isUpperLetter, decide_eq_true_eq] using h
  unfold Char.toUpper
  rw [if_neg]
  omega

/-! ## Maximal runs of characters satisfying a predicate

`runsBy p cs` returns the list of maximal nonempty runs of characters
satisfying `p`, in order.  With `p := isWordChar` this is the word
decomposition induced by the regex boundary `\b`; `re.findall(r'\b[A-Z]{1,5}\b', s)`
is then the sublist of those runs that consist purely of `[A-Z]` and have
length at most 5 (a run containing a digit or underscore, or longer than 5,
has no internal `\b` and produces no match). -/

/-- Accumulator worker: `acc` is the current run, reversed. -/
def runsByAux (p : Char → Bool) : List Char → List Char → List (List Char)
  | [], acc => if acc = [] then [] else [acc.reverse]
  | c :: cs, acc =>
    if p c then
      runsByAux p cs (c :: acc)
    else if acc = [] then
      runsByAux p cs []
    else
      acc.reverse :: runsByAux p cs []

/-- Maximal nonempty runs of characters satisfying `p`. -/
def runsBy (p : Char → Bool) (cs : List Char) : List (List Char) :=
  runsByAux p cs []

theorem runsByAux_append_all (p : Char → Bool) (w : List Char)
    (hw : ∀ c ∈ w, p c = true) :
    ∀ (l acc : List Char), runsByAux p (w ++ l) acc = runsByAux p l (w.reverse ++ acc) := by
  induction w with
  | nil => intro l acc; simp
  | cons c w ih =>
    intro l acc
    have hc : p c = true := hw c (List.mem_cons_self c w)
    have hw' : ∀ c ∈ w, p c = true := fun d hd => hw d (List.mem_cons_of_mem c hd)
    simp only [List.cons_append, runsByAux, hc, if_pos]
    rw [List.reverse_cons, List.append_assoc]
    exact ih hw' l (c :: acc)

theorem runsBy_word_cons (p : Char → Bool) (w rest : List Char)
    (hne : w ≠ []) (hw : ∀ c ∈ w, p c = true) (hsp : p ' ' = false) :
    runsBy p (w ++ ' ' :: rest) = w :: runsBy p rest := by
  unfold runsBy
  rw [runsByAux_append_all p w hw (' ' :: rest) []]
  have hrev : w.reverse ≠ [] := by simpa using hne
  simp [runsByAux, hsp, hrev]

theorem runsBy_word_single (p : Char → Bool) (w : List Char)
    (hne : w ≠ []) (hw : ∀ c ∈ w, p c = true) :
    runsBy p w = [w] := by
  unfold runsBy
  have heq := runsByAux_append_all p w hw [] []
  rw [List.append_nil] at heq
  rw [heq]
  have hrev : w.reverse ≠ [] := by simpa using hne
  simp [runsByAux, hrev]

/-! ## First-occurrence deduplication (`dict.fromkeys`) -/

/-- Worker for first-occurrence dedup: `seen` are the keys already emitted. -/
def dedupFirstAux {α : Type} [DecidableEq α] (seen : List α) : List α → List α
  | [] => []
  | x :: xs =>
    if x ∈ seen then dedupFirstAux seen xs
    else x :: dedupFirstAux (x :: seen) xs

/-- `list(dict.fromkeys(l))`: deduplicate keeping the first occurrence,
preserving order. -/
def dedupFirst {α : Type} [DecidableEq α] (l : List α) : List α :=
  dedupFirstAux [] l

theorem dedupFirstAux_sublist {α : Type} [DecidableEq α] :
    ∀ (l seen : List α), (dedupFirstAux seen l).Sublist l := by
  intro l
  induction l with
  | nil => intro seen; simp [dedupFirstAux]
  | cons x xs ih =>
    intro seen
    simp only [dedupFirstAux]
    by_cases hx : x ∈ seen
    · rw [if_pos hx]; exact (ih seen).cons x
    · rw [if_neg hx]; exact (ih (x :: seen)).cons₂ x

theorem dedupFirstAux_not_mem_seen {α : Type} [DecidableEq α] :
    ∀ (l seen : List α) (a : α), a ∈ dedupFirstAux seen l → a ∉ seen := by
  intro l
  induction l with
  | nil => intro seen a ha; simp [dedupFirstAux] at ha
  | cons x xs ih =>
    intro seen a ha
    simp only [dedupFirstAux] at ha
    by_cases hx : x ∈ seen
    · rw [if_pos hx] at ha; exact ih seen a ha
    · rw [if_neg hx] at ha
      rcases List.mem_cons.mp ha with h | h
      · subst h; exact hx
      · have := ih (x :: seen) a h
        exact fun hmem => this (List.mem_cons_of_mem x hmem)

theorem dedupFirstAux_nodup {α : Type} [DecidableEq α] :
    ∀ (l seen : List α), (dedupFirstAux seen l).Nodup := by
  intro l
  induction l with
  | nil => intro seen; simp [dedupFirstAux]
  | cons x xs ih =>
    intro seen
    simp only [dedupFirstAux]
    by_cases hx : x ∈ seen
    · rw [if_pos hx]; exact ih seen
    · rw [if_neg hx]
      refine List.nodup_cons.mpr ⟨?_, ih (x :: seen)⟩
      intro hmem
      exact dedupFirstAux_not_mem_seen xs (x :: seen) x hmem (List.mem_cons_self x seen)

theorem dedupFirstAux_eq_self {α : Type} [DecidableEq α] :
    ∀ (l seen : List α), l.Nodup → (∀ a ∈ l, a ∉ seen) → dedupFirstAux seen l = l := by
  intro l
  induction l with
  | nil => intro seen _ _; simp [dedupFirstAux]
  | cons x xs ih =>
    intro seen hnd hsn
    simp only [dedupFirstAux]
    rw [if_neg (hsn x (List.mem_cons_self x xs))]
    congr 1
    refine ih (x :: seen) (List.nodup_cons.mp hnd).2 ?_
    intro a ha
    rcases List.nodup_cons.mp hnd with ⟨hx, _⟩
    intro hmem
    rcases List.mem_cons.mp hmem with h | h
    · subst h; exact hx ha
    · exact hsn a (List.mem_cons_of_mem x ha) h

theorem dedupFirst_sublist {α : Type} [DecidableEq α] (l : List α) :
    (dedupFirst l).Sublist l :=
  dedupFirstAux_sublist l []

theorem dedupFirst_nodup {α : Type} [DecidableEq α] (l : List α) :
    (dedupFirst l).Nodup :=
  dedupFirstAux_nodup l []

theorem dedupFirst_eq_self {α : Type} [DecidableEq α] (l : List α) (h : l.Nodup) :
    dedupFirst l = l :=
  dedupFirstAux_eq_self l [] h (by simp)

/-! ## Strategy A: `YFinanceService.parse_tickers_from_text` -/

/-- The fixed false-positive exclusion set of `parse_tickers_from_text`
(`exclude_words`). -/
def excludeWords : List (List Char) :=
  ["AND", "OR", "THE", "FOR", "WITH", "FROM", "TO", "OF", "IN", "ON",
   "AT", "BY", "IS", "ARE", "WAS", "WERE", "BE", "BEEN", "BEING",
   "HAVE", "HAS", "HAD", "DO", "DOES", "DID", "WILL", "WOULD", "COULD",
   "SHOULD", "MAY", "MIGHT", "CAN", "SHALL", "MUST", "LTM", "NTM",
   "EV", "PE", "EBITDA", "COMPS"].map String.toList

/-- One potential ticker of the regex `\b[A-Z]{1,5}\b`: a maximal word-character
run consisting purely of uppercase letters, of length 1 to 5. -/
def regexKeep (w : List Char) : Bool :=
  w.all isUpperLetter && decide (1 ≤ w.length) && decide (w.length ≤ 5)

/-- The second filter of `parse_tickers_from_text`: length at least 2 and not
in the exclusion set. -/
def tickerKeep (w : List Char) : Bool :=
  decide (2 ≤ w.length) && !decide (w ∈ excludeWords)

/-- `YFinanceService.parse_tickers_from_text` (yfinance_service.py:25-47):
`re.findall(r'\b[A-Z]{1,5}\b', text.upper())`, drop matches of length < 2 or
in `exclude_words`, deduplicate keeping first occurrences, truncate to 10. -/
def parse_tickers_from_text (text : List Char) : List (List Char) :=
  let potential_tickers := (runsBy isWordChar (text.map Char.toUpper)).filter regexKeep
  let tickers := potential_tickers.filter tickerKeep
  (dedupFirst tickers).take 10

/-! ## Joining (`', '.join`, space-separated concatenation) -/

/-- `sep.join(ws)`. -/
def joinWith (sep : List Char) : List (List Char) → List Char
  | [] => []
  | [w] => w
  | w :: ws => w ++ sep ++ joinWith sep ws

/-! ## Structural properties of `parse_tickers_from_text` -/

theorem parse_tickers_sublist_runs (text : List Char) :
    (parse_tickers_from_text text).Sublist
      (runsBy isWordChar (text.map Char.toUpper)) := by
  unfold parse_tickers_from_text
  exact ((List.take_sublist _ _).trans (dedupFirst_sublist _)).trans
    ((List.filter_sublist _).trans (List.filter_sublist _))

theorem parse_tickers_nodup (text : List Char) :
    (parse_tickers_from_text text).Nodup := by
  unfold parse_tickers_from_text
  exact (List.take_sublist _ _).nodup (dedupFirst_nodup _)

theorem parse_tickers_length_le (text : List Char) :
    (parse_tickers_from_text text).length ≤ 10 := by
  unfold parse_tickers_from_text
  exact List.length_take_le _ _

theorem mem_parse_tickers (text : List Char) (w : List Char)
    (h : w ∈ parse_tickers_from_text text) :
    regexKeep w = true ∧ tickerKeep w = true := by
  unfold parse_tickers_from_text at h
  have h1 : w ∈ dedupFirst (((runsBy isWordChar (text.map Char.toUpper)).filter
      regexKeep).filter tickerKeep) := (List.take_sublist _ _).subset h
  have h2 := (dedupFirst_sublist _).subset h1
  have h3 := List.mem_filter.mp h2
  exact ⟨(List.mem_filter.mp h3.1).2, h3.2⟩

theorem mem_parse_tickers_props (text : List Char) (w : List Char)
    (h : w ∈ parse_tickers_from_text text) :
    2 ≤ w.length ∧ w.length ≤ 5 ∧ w.all isUpperLetter = true ∧ w ∉ excludeWords := by
  obtain ⟨hr, ht⟩ := mem_parse_tickers text w h
  unfold regexKeep at hr
  unfold tickerKeep at ht
  simp only [Bool.and_eq_true, decide_eq_true_eq, Bool.not_eq_true',
    decide_eq_false_iff_not] at hr ht
  exact ⟨ht.1, hr.2, hr.1.1, ht.2⟩

/-! ## Idempotence of pattern extraction -/

theorem isWordChar_of_upper (c : Char) (h : isUpperLetter c = true) :
    isWordChar c = true := by
  simp [isWordChar, h]

theorem map_toUpper_all_upper (w : List Char) (h : w.all isUpperLetter = true) :
    w.map Char.toUpper = w := by
  induction w with
  | nil => rfl
  | cons c cs ih =>
    simp only [List.all_cons, Bool.and_eq_true] at h
    simp only [List.map_cons, toUpper_eq_self_of_upper c h.1, ih h.2]

theorem map_toUpper_joinWith_space (ws : List (List Char))
    (h : ∀ w ∈ ws, w.all isUpperLetter = true) :
    (joinWith [' '] ws).map Char.toUpper = joinWith [' '] ws := by
  induction ws with
  | nil => simp [joinWith]
  | cons w ws ih =>
    have hw : w.map Char.toUpper = w :=
      map_toUpper_all_upper w (h w (List.mem_cons_self w ws))
    match ws with
    | [] => exact hw
    | w' :: ws' =>
      have hrest := ih (fun u hu => h u (List.mem_cons_of_mem w hu))
      have hsp : List.map Char.toUpper [' '] = [' '] := by decide
      show List.map Char.toUpper (w ++ [' '] ++ joinWith [' '] (w' :: ws')) = _
      rw [List.map_append, List.map_append, hw, hsp, hrest]
      rfl

theorem runsBy_joinWith_space (p : Char → Bool) (hsp : p ' ' = false) :
    ∀ ws : List (List Char),
      (∀ w ∈ ws, w ≠ [] ∧ ∀ c ∈ w, p c = true) →
      runsBy p (joinWith [' '] ws) = ws := by
  intro ws
  induction ws with
  | nil => intro _; simp [joinWith, runsBy, runsByAux]
  | cons w ws ih =>
    intro h
    obtain ⟨hne, hw⟩ := h w (List.mem_cons_self w ws)
    match ws with
    | [] => exact runsBy_word_single p w hne hw
    | w' :: ws' =>
      have hrest := ih (fun u hu => h u (List.mem_cons_of_mem w hu))
      show runsBy p (w ++ [' '] ++ joinWith [' '] (w' :: ws')) = _
      rw [List.append_assoc, List.singleton_append,
        runsBy_word_cons p w _ hne hw hsp, hrest]

/-- C10: pattern extraction is idempotent under re-extraction.  Feeding the
space-separated concatenation of the extractor's own output back into the
extractor reproduces the output exactly; moreover every returned symbol is a
2–5 letter uppercase run outside the stopword set, the output is
duplicate-free, and its length is at most 10. -/
theorem parse_tickers_idempotent (text : List Char) :
    parse_tickers_from_text (joinWith [' '] (parse_tickers_from_text text))
        = parse_tickers_from_text text ∧
    (parse_tickers_from_text text).Nodup ∧
    (parse_tickers_from_text text).length ≤ 10 ∧
    (parse_tickers_from_text text).all
      (fun w => decide (2 ≤ w.length) && decide (w.length ≤ 5) &&
        w.all isUpperLetter && !decide (w ∈ excludeWords)) = true := by
  refine ⟨?_, parse_tickers_nodup text, parse_tickers_length_le text, ?_⟩
  · set out := parse_tickers_from_text text with hout
    have hprops : ∀ w ∈ out, 2 ≤ w.length ∧ w.length ≤ 5 ∧
        w.all isUpperLetter = true ∧ w ∉ excludeWords :=
      fun w hw => mem_parse_tickers_props text w hw
    have hupper : ∀ w ∈ out, w.all isUpperLetter = true :=
      fun w hw => (hprops w hw).2.2.1
    have hword : ∀ w ∈ out, w ≠ [] ∧ ∀ c ∈ w, isWordChar c = true := by
      intro w hw
      constructor
      · intro hnil
        have := (hprops w hw).1
        rw [hnil] at this
        simp at this
      · intro c hc
        exact isWordChar_of_upper c (List.all_eq_true.mp (hupper w hw) c hc)
    have hdef : parse_tickers_from_text (joinWith [' '] out) =
        (dedupFirst (((runsBy isWordChar ((joinWith [' '] out).map Char.toUpper)).filter
          regexKeep).filter tickerKeep)).take 10 := rfl
    rw [hdef, map_toUpper_joinWith_space out hupper,
      runsBy_joinWith_space isWordChar (by decide) out hword]
    have hfilter1 : out.filter regexKeep = out := by
      rw [List.filter_eq_self]
      intro w hw
      obtain ⟨h2, h5, hup, _⟩ := hprops w hw
      simp only [regexKeep, Bool.and_eq_true, decide_eq_true_eq]
      exact ⟨⟨hup, by omega⟩, h5⟩
    have hfilter2 : out.filter tickerKeep = out := by
      rw [List.filter_eq_self]
      intro w hw
      obtain ⟨h2, _, _, hex⟩ := hprops w hw
      simp only [tickerKeep, Bool.and_eq_true, decide_eq_true_eq,
        Bool.not_eq_true', decide_eq_false_iff_not]
      exact ⟨h2, hex⟩
    rw [hfilter1, hfilter2, dedupFirst_eq_self out (parse_tickers_nodup text),
      List.take_of_length_le (parse_tickers_length_le text)]
  · rw [List.all_eq_true]
    intro w hw
    obtain ⟨h2, h5, hup, hex⟩ := mem_parse_tickers_props text w hw
    simp only [Bool.and_eq_true, decide_eq_true_eq, Bool.not_eq_true',
      decide_eq_false_iff_not]
    exact ⟨⟨⟨h2, h5⟩, hup⟩, hex⟩

/-! ## C3: the claim's reading of extraction, for comparison

The claim describes the matches of `\b[A-Z]{1,5}\b` as "the maximal 1–5
uppercase-letter runs of the uppercased text".  The regex boundary `\b` is a
*word* boundary, so a letter run adjacent to a digit or underscore (e.g. the
run `AB` in `"AB3"`) is a maximal letter run but is *not* matched by the
regex.  The following definition follows the claim's wording so the two can
be compared. -/

/-- Extraction as worded by the claim: maximal runs of uppercase letters
(bounded by non-letters) of length 1–5, then the same discard / dedup / cap
steps. -/
def spec_letter_extraction (text : List Char) : List (List Char) :=
  let runs := (runsBy isUpperLetter (text.map Char.toUpper)).filter
      (fun w => decide (1 ≤ w.length) && decide (w.length ≤ 5))
  (dedupFirst (runs.filter tickerKeep)).take 10

/-- C3 (as stated) is false: on input `"AB3"` the code returns `[]`, while
the claim's "maximal 1–5 uppercase-letter runs" reading would keep `"AB"`
(a maximal letter run of length 2, not a stopword).  The regex word boundary
`\b` does not fire between a letter and a digit. -/
theorem parse_tickers_counterexample :
    parse_tickers_from_text "AB3".toList = [] ∧
    spec_letter_extraction "AB3".toList = ["AB".toList] := by
  constructor
  · rfl
  · rfl

/-- C3 (amended): pattern extraction returns at most 10 symbols, without
duplicates, order-preserving (a sublist of the maximal *word-character* runs
of the uppercased text — not of the letter runs); every returned symbol is a
2–5 uppercase-letter word outside the stopword set; a text whose word runs
contain no pure-letter run of length 1–5 yields `[]`; `"NVDA AMD NVDA"`
yields exactly `["NVDA", "AMD"]` and a stopword-only text yields `[]`. -/
theorem parse_tickers_amended (text : List Char) :
    (parse_tickers_from_text text).length ≤ 10 ∧
    (parse_tickers_from_text text).Nodup ∧
    (parse_tickers_from_text text).Sublist
      (runsBy isWordChar (text.map Char.toUpper)) ∧
    (∀ w ∈ parse_tickers_from_text text,
      2 ≤ w.length ∧ w.length ≤ 5 ∧ w.all isUpperLetter = true ∧ w ∉ excludeWords) ∧
    ((runsBy isWordChar (text.map Char.toUpper)).filter regexKeep = [] →
      parse_tickers_from_text text = []) ∧
    parse_tickers_from_text "NVDA AMD NVDA".toList = ["NVDA".toList, "AMD".toList] ∧
    parse_tickers_from_text "THE EV AND".toList = [] := by
  refine ⟨parse_tickers_length_le text, parse_tickers_nodup text,
    parse_tickers_sublist_runs text, mem_parse_tickers_props text, ?_, rfl, rfl⟩
  intro hempty
  unfold parse_tickers_from_text
  rw [hempty]
  rfl

theorem parse_tickers_amended_witness :
    (2 ≤ "NVDA".toList.length ∧ "NVDA".toList.length ≤ 5 ∧
      "NVDA".toList.all isUpperLetter = true ∧ "NVDA".toList ∉ excludeWords) ∧
    parse_tickers_from_text "123 45".toList = [] := by
  constructor
  · exact (parse_tickers_amended "nvda and amd".toList).2.2.2.1 "NVDA".toList (by decide)
  · exact (parse_tickers_amended "123 45".toList).2.2.2.2.1 (by decide)

/-! ## Strategy B validation: `OpenAIService.extract_tickers_from_text`

The deterministic tail of `extract_tickers_from_text` (openai_service.py:56-67):
the candidate list produced by the LLM (an untrusted oracle) is validated by
`ticker = str(ticker).upper().strip()` followed by
`if ticker and len(ticker) <= 5 and ticker.isalpha()`, and capped with
`[:10]`. -/

/-- `str.strip()` (ASCII whitespace model). -/
def pyStrip (s : List Char) : List Char :=
  ((s.dropWhile isSpaceChar).reverse.dropWhile isSpaceChar).reverse

/-- `str.isalpha()`: nonempty and all alphabetic. -/
def pyIsAlpha (s : List Char) : Bool :=
  !s.isEmpty && s.all isAlphaChar

/-- `ticker.upper().strip()`. -/
def upperStrip (t : List Char) : List Char :=
  pyStrip (t.map Char.toUpper)

/-- The validation loop of `OpenAIService.extract_tickers_from_text`
(lines 60-64) followed by the `[:10]` cap (line 67). -/
def validate_llm_tickers (tickers : List (List Char)) : List (List Char) :=
  ((tickers.map upperStrip).filter
    (fun t => !t.isEmpty && decide (t.length ≤ 5) && pyIsAlpha t)).take 10

/-- C2 (as stated) is false: the delegated extractor does *not* apply
Strategy A's steps 3–5.  It keeps stopwords, keeps duplicates, and keeps
1-letter symbols: `["THE", "THE"]` survives unchanged even though `THE` is in
the stopword set, and the 1-letter candidate `"F"` is kept. -/
theorem llm_validation_counterexample :
    validate_llm_tickers ["THE".toList, "THE".toList]
        = ["THE".toList, "THE".toList] ∧
    "THE".toList ∈ excludeWords ∧
    ¬ (validate_llm_tickers ["THE".toList, "THE".toList]).Nodup ∧
    validate_llm_tickers ["F".toList] = ["F".toList] := by
  refine ⟨rfl, by decide, by decide, rfl⟩

theorem toNat_char_ofNat_of_lt (n : Nat) (h : n < 55296) : (Char.ofNat n).toNat = n := by
  have hv : n.isValidChar := Or.inl h
  rw [Char.ofNat, dif_pos hv]
  simp [Char.ofNatAux, Char.toNat, UInt32.toNat]

theorem isUpperLetter_toUpper (c : Char) (h : isAlphaChar c.toUpper = true) :
    isUpperLetter c.toUpper = true := by
  unfold Char.toUpper at h ⊢
  by_cases hc : 97 ≤ c.toNat ∧ c.toNat ≤ 122
  · rw [if_pos hc] at h ⊢
    have ht : (Char.ofNat (c.toNat - 32)).toNat = c.toNat - 32 :=
      toNat_char_ofNat_of_lt _ (by omega)
    simp only [isUpperLetter, ht, Bool.and_eq_true, decide_eq_true_eq]
    omega
  · rw [if_neg hc] at h ⊢
    simp only [isAlphaChar, isUpperLetter, isLowerLetter, Bool.or_eq_true,
      Bool.and_eq_true, decide_eq_true_eq] at h ⊢
    omega

theorem mem_pyStrip {c : Char} {s : List Char} (h : c ∈ pyStrip s) : c ∈ s := by
  unfold pyStrip at h
  rw [List.mem_reverse] at h
  have h1 := (List.dropWhile_sublist _).subset h
  rw [List.mem_reverse] at h1
  exact (List.dropWhile_sublist _).subset h1

/-- C2 (amended): the delegated extractor's validation keeps, in order,
exactly the uppercased-and-stripped candidates that are nonempty, alphabetic
and of length at most 5, truncated to the first 10 — with *no* minimum length
2, *no* stopword exclusion and *no* deduplication.  Every kept symbol is
uppercase, alphabetic, nonempty and of length at most 5, and at most 10
symbols are returned. -/
theorem llm_validation_amended (ts : List (List Char)) :
    (validate_llm_tickers ts).length ≤ 10 ∧
    (validate_llm_tickers ts).Sublist (ts.map upperStrip) ∧
    (∀ w ∈ validate_llm_tickers ts,
      w ≠ [] ∧ w.length ≤ 5 ∧ w.all isAlphaChar = true ∧ w.all isUpperLetter = true) := by
  refine ⟨List.length_take_le _ _,
    (List.take_sublist _ _).trans (List.filter_sublist _), ?_⟩
  intro w hw
  have hw' : w ∈ (ts.map upperStrip).filter
      (fun t => !t.isEmpty && decide (t.length ≤ 5) && pyIsAlpha t) :=
    (List.take_sublist _ _).subset hw
  have hmem := List.mem_filter.mp hw'
  have hpred := hmem.2
  simp only [pyIsAlpha, Bool.and_eq_true, decide_eq_true_eq, Bool.not_eq_true',
    List.isEmpty_eq_false] at hpred
  obtain ⟨⟨hne, hlen⟩, _, halpha⟩ := hpred
  refine ⟨hne, hlen, halpha, ?_⟩
  obtain ⟨t, _, rfl⟩ := List.mem_map.mp hmem.1
  rw [List.all_eq_true] at halpha ⊢
  intro c hc
  have hc' : c ∈ t.map Char.toUpper := mem_pyStrip hc
  obtain ⟨c', _, rfl⟩ := List.mem_map.mp hc'
  exact isUpperLetter_toUpper c' (halpha _ hc)

theorem llm_validation_amended_witness :
    ("AAPL".toList ≠ [] ∧ "AAPL".toList.length ≤ 5 ∧
      "AAPL".toList.all isAlphaChar = true ∧ "AAPL".toList.all isUpperLetter = true) :=
  (llm_validation_amended ["  aapl ".toList]).2.2 "AAPL".toList (by decide)

/-! ## Multiple Calculator: `calculate_ev` / `calculate_multiples` -/

/-- The per-symbol raw fact sheet produced by
`YFinanceService._extract_ticker_data` (yfinance_service.py:86-100).  Numeric
fields are exact rationals; a field absent from the provider snapshot is
already 0 at construction (the `info.get(key, 0)` convention). -/
structure RawFinancials where
  marketCap : ℚ
  sharesOutstanding : ℚ
  totalDebt : ℚ
  totalCash : ℚ
  revenue : ℚ
  ebitda : ℚ
  trailingEps : ℚ
  forwardEps : ℚ
  currentPrice : ℚ
  currency : List Char
deriving DecidableEq, Repr

/-- The derived metrics dictionary returned by `calculate_multiples`. -/
structure ComputedMultiples where
  ev : ℚ
  evRevenueLTM : ℚ
  evEbitdaLTM : ℚ
  evEbitdaNTM : ℚ
  peLTM : ℚ
  peNTM : ℚ
deriving DecidableEq, Repr

/-- `YFinanceService.calculate_ev` (yfinance_service.py:102-104). -/
def calculate_ev (market_cap debt cash : ℚ) : ℚ :=
  max 0 (market_cap + debt - cash)

/-- `YFinanceService.calculate_multiples` (yfinance_service.py:106-130). -/
def calculate_multiples (data : RawFinancials) : ComputedMultiples :=
  let market_cap := data.marketCap
  let debt := data.totalDebt
  let cash := data.totalCash
  let revenue := data.revenue
  let ebitda := data.ebitda
  let trailing_eps := data.trailingEps
  let forward_eps := data.forwardEps
  let shares_outstanding := data.sharesOutstanding
  let ev := calculate_ev market_cap debt cash
  { ev := ev
    evRevenueLTM := if revenue > 0 then ev / revenue else 0
    evEbitdaLTM := if ebitda > 0 then ev / ebitda else 0
    evEbitdaNTM := if ebitda > 0 then ev / ebitda else 0
    peLTM := if trailing_eps > 0 ∧ shares_outstanding > 0 then
        market_cap / (trailing_eps * shares_outstanding) else 0
    peNTM := if forward_eps > 0 ∧ shares_outstanding > 0 then
        market_cap / (forward_eps * shares_outstanding) else 0 }

/-- The all-zero input record. -/
def zeroRawFinancials : RawFinancials :=
  { marketCap := 0, sharesOutstanding := 0, totalDebt := 0, totalCash := 0,
    revenue := 0, ebitda := 0, trailingEps := 0, forwardEps := 0,
    currentPrice := 0, currency := "USD".toList }

/-- The spec's worked example input. -/
def exampleRawFinancials : RawFinancials :=
  { marketCap := 1000, sharesOutstanding := 100, totalDebt := 200,
    totalCash := 50, revenue := 500, ebitda := 100, trailingEps := 2,
    forwardEps := 5/2, currentPrice := 0, currency := "USD".toList }

/-- C1: the multiple calculator is a total function; for every input record
it returns `ev = max(0, marketCap + totalDebt - totalCash)` (hence `ev ≥ 0`),
each ratio guarded by its denominator's positivity with 0 substituted; the
all-zero input yields all-zero output, and the spec's worked example yields
`ev = 1150`, `evRevenueLTM = 2.3`, `evEbitdaLTM = evEbitdaNTM = 11.5`,
`peLTM = 5`, `peNTM = 4`. -/
theorem calculate_multiples_spec :
    (∀ data : RawFinancials,
      (calculate_multiples data).ev
          = max 0 (data.marketCap + data.totalDebt - data.totalCash) ∧
      0 ≤ (calculate_multiples data).ev ∧
      (calculate_multiples data).evRevenueLTM
          = (if data.revenue > 0 then (calculate_multiples data).ev / data.revenue else 0) ∧
      (calculate_multiples data).evEbitdaLTM
          = (if data.ebitda > 0 then (calculate_multiples data).ev / data.ebitda else 0) ∧
      (calculate_multiples data).evEbitdaNTM
          = (if data.ebitda > 0 then (calculate_multiples data).ev / data.ebitda else 0) ∧
      (calculate_multiples data).peLTM
          = (if data.trailingEps > 0 ∧ data.sharesOutstanding > 0 then
              data.marketCap / (data.trailingEps * data.sharesOutstanding) else 0) ∧
      (calculate_multiples data).peNTM
          = (if data.forwardEps > 0 ∧ data.sharesOutstanding > 0 then
              data.marketCap / (data.forwardEps * data.sharesOutstanding) else 0)) ∧
    calculate_multiples zeroRawFinancials
        = { ev := 0, evRevenueLTM := 0, evEbitdaLTM := 0, evEbitdaNTM := 0,
            peLTM := 0, peNTM := 0 } ∧
    calculate_multiples exampleRawFinancials
        = { ev := 1150, evRevenueLTM := 23/10, evEbitdaLTM := 23/2,
            evEbitdaNTM := 23/2, peLTM := 5, peNTM := 4 } := by
  refine ⟨?_,
    by norm_num [calculate_multiples, calculate_ev, zeroRawFinancials],
    by norm_num [calculate_multiples, calculate_ev, exampleRawFinancials]⟩
  intro data
  exact ⟨rfl, le_max_left 0 _, rfl, rfl, rfl, rfl, rfl⟩

/-- C7: for every input record the computed `evEbitdaNTM` coincides exactly
with `evEbitdaLTM`; both are `ev / ebitda` when `ebitda > 0` and 0 otherwise
(no distinct NTM EBITDA source enters the computation). -/
theorem evEbitdaNTM_eq_evEbitdaLTM (data : RawFinancials) :
    (calculate_multiples data).evEbitdaNTM = (calculate_multiples data).evEbitdaLTM ∧
    (calculate_multiples data).evEbitdaLTM
        = (if data.ebitda > 0 then (calculate_multiples data).ev / data.ebitda else 0) :=
  ⟨rfl, rfl⟩

/-! ## Financial Data Gateway: `YFinanceService.get_stock_data`

The external market-data collaborator is an oracle `fetch`.  One call either
raises (transport/provider error), returns a falsy snapshot, or returns a
snapshot with some number of recognized fields together with the normalized
record that `_extract_ticker_data` reads off it.  `get_stock_data`
(yfinance_service.py:49-84) wraps each call in `try/except … continue`, so in
the embedding the whole batch is a total function: no exception propagates
out of it by construction.  The Python `stock_data` dict is modelled as the
association list of its insertions. -/

/-- Outcome of `yf.Ticker(t).info` for one symbol. -/
inductive FetchResult where
  | raises
  | noInfo
  | info (fields : Nat) (data : RawFinancials)
deriving DecidableEq, Repr

/-- The guarded body of the per-symbol `try`: `info = stock.info;
if info and len(info) > 5: …` — an exception or a snapshot failing the
minimal validation produces no entry. -/
def tryFetch (fetch : List Char → FetchResult) (t : List Char) :
    Option RawFinancials :=
  match fetch t with
  | .raises => none
  | .noInfo => none
  | .info fields data => if 5 < fields then some data else none

/-- The per-symbol outcome of `get_stock_data`: the cached snapshot if the
symbol is cached, otherwise the validated fetch outcome. -/
def symbolData (cache : List (List Char × RawFinancials))
    (fetch : List Char → FetchResult) (t : List Char) : Option RawFinancials :=
  match cache.lookup t with
  | some d => some d
  | none => tryFetch fetch t

/-- `YFinanceService.get_stock_data`: first loop serves cached symbols and
collects `uncached_tickers`; early return if nothing is uncached; second loop
fetches each uncached symbol under per-symbol `try/except`. -/
def get_stock_data (cache : List (List Char × RawFinancials))
    (fetch : List Char → FetchResult) (tickers : List (List Char)) :
    List (List Char × RawFinancials) :=
  let stock_data := tickers.filterMap
      (fun t => (cache.lookup t).map (fun d => (t, d)))
  let uncached_tickers := tickers.filter (fun t => (cache.lookup t).isNone)
  if uncached_tickers.isEmpty then stock_data
  else
    stock_data ++ uncached_tickers.filterMap
      (fun t => (tryFetch fetch t).map (fun d => (t, d)))

theorem get_stock_data_eq (cache : List (List Char × RawFinancials))
    (fetch : List Char → FetchResult) (tickers : List (List Char)) :
    get_stock_data cache fetch tickers
      = tickers.filterMap (fun t => (cache.lookup t).map (fun d => (t, d)))
        ++ (tickers.filter (fun t => (cache.lookup t).isNone)).filterMap
            (fun t => (tryFetch fetch t).map (fun d => (t, d))) := by
  have hdef : get_stock_data cache fetch tickers =
      if (tickers.filter (fun t => (cache.lookup t).isNone)).isEmpty then
        tickers.filterMap (fun t => (cache.lookup t).map (fun d => (t, d)))
      else
        tickers.filterMap (fun t => (cache.lookup t).map (fun d => (t, d)))
          ++ (tickers.filter (fun t => (cache.lookup t).isNone)).filterMap
              (fun t => (tryFetch fetch t).map (fun d => (t, d))) := rfl
  rw [hdef]
  by_cases h : (tickers.filter (fun t => (cache.lookup t).isNone)).isEmpty
  · rw [if_pos h, List.isEmpty_iff.mp h]
    simp
  · rw [if_neg h]

theorem mem_get_stock_data (cache : List (List Char × RawFinancials))
    (fetch : List Char → FetchResult) (tickers : List (List Char))
    (t : List Char) :
    (∃ d, (t, d) ∈ get_stock_data cache fetch tickers) ↔
      (t ∈ tickers ∧ (symbolData cache fetch t).isSome = true) := by
  rw [get_stock_data_eq]
  have hcached : ∀ d : RawFinancials,
      (t, d) ∈ tickers.filterMap (fun s => (cache.lookup s).map (fun v => (s, v))) ↔
        (t ∈ tickers ∧ cache.lookup t = some d) := by
    intro d
    rw [List.mem_filterMap]
    constructor
    · rintro ⟨a, ha, hfa⟩
      rcases Option.map_eq_some'.mp hfa with ⟨v, hv, hpair⟩
      injection hpair with h1 h2
      subst h1; subst h2
      exact ⟨ha, hv⟩
    · rintro ⟨ht, hv⟩
      exact ⟨t, ht, by rw [hv]; rfl⟩
  have hfetched : ∀ d : RawFinancials,
      (t, d) ∈ (tickers.filter (fun s => (cache.lookup s).isNone)).filterMap
          (fun s => (tryFetch fetch s).map (fun v => (s, v))) ↔
        (t ∈ tickers ∧ cache.lookup t = none ∧ tryFetch fetch t = some d) := by
    intro d
    rw [List.mem_filterMap]
    constructor
    · rintro ⟨a, ha, hfa⟩
      rcases Option.map_eq_some'.mp hfa with ⟨v, hv, hpair⟩
      injection hpair with h1 h2
      subst h1; subst h2
      have hmem := List.mem_filter.mp ha
      exact ⟨hmem.1, Option.isNone_iff_eq_none.mp hmem.2, hv⟩
    · rintro ⟨ht, hnone, hv⟩
      refine ⟨t, List.mem_filter.mpr ⟨ht, by simp [hnone]⟩, by rw [hv]; rfl⟩
  constructor
  · rintro ⟨d, hd⟩
    rcases List.mem_append.mp hd with h | h
    · obtain ⟨ht, hv⟩ := (hcached d).mp h
      exact ⟨ht, by simp [symbolData, hv]⟩
    · obtain ⟨ht, hnone, hv⟩ := (hfetched d).mp h
      exact ⟨ht, by simp [symbolData, hnone, hv]⟩
  · rintro ⟨ht, hs⟩
    cases hl : cache.lookup t with
    | some d =>
      exact ⟨d, List.mem_append.mpr (Or.inl ((hcached d).mpr ⟨ht, hl⟩))⟩
    | none =>
      have hs' : (tryFetch fetch t).isSome = true := by
        simpa [symbolData, hl] using hs
      obtain ⟨d, hd⟩ := Option.isSome_iff_exists.mp hs'
      exact ⟨d, List.mem_append.mpr (Or.inr ((hfetched d).mpr ⟨ht, hl, hd⟩))⟩

/-- An oracle realizing the spec's example batch: `"AAPL"` succeeds with a
valid snapshot, everything else (in particular `"XXFAKE"`) raises. -/
def exampleFetch (t : List Char) : FetchResult :=
  if t = "AAPL".toList then .info 40 exampleRawFinancials else .raises

/-- C4: per-symbol isolation of the Gateway.  A transport or provider error
(or a validation rejection) for one symbol does not abort the batch: the
returned mapping contains an entry for exactly the symbols of the batch whose
per-symbol outcome succeeded (cached, or fetched and validated), and omits
exactly the failing ones; the batch call itself is a total function, so no
exception propagates.  In particular a batch where `"XXFAKE"` raises and
`"AAPL"` succeeds returns a map containing only `"AAPL"`. -/
theorem get_stock_data_isolation :
    (∀ (cache : List (List Char × RawFinancials))
       (fetch : List Char → FetchResult) (tickers : List (List Char))
       (t : List Char),
      (∃ d, (t, d) ∈ get_stock_data cache fetch tickers) ↔
        (t ∈ tickers ∧ (symbolData cache fetch t).isSome = true)) ∧
    get_stock_data [] exampleFetch ["XXFAKE".toList, "AAPL".toList]
      = [("AAPL".toList, exampleRawFinancials)] := by
  exact ⟨mem_get_stock_data, rfl⟩

/-! ## Analysis Pipeline: the `/analyze` endpoint (endpoints.py:30-94)

The LLM collaborator is abstracted as `llm_tickers : Option (List (List Char))`:
`none` models the unavailable/raising collaborator (endpoints.py catches the
exception and leaves `tickers` empty; the service itself also returns `[]` on
malformed output), `some l` models a returned candidate list.  The
Gateway+Calculator composition `process_tickers` is abstracted as the oracle
`process`. -/

/-- `MetricRow` (schemas.py): identity, raw fields and computed fields. -/
structure MetricRow where
  ticker : List Char
  marketCap : ℚ
  sharesOutstanding : ℚ
  debt : ℚ
  cash : ℚ
  revenue : ℚ
  ebitda : ℚ
  eps : ℚ
  ev : ℚ
  evRevenueLTM : ℚ
  evEbitdaLTM : ℚ
  evEbitdaNTM : ℚ
  peLTM : ℚ
  peNTM : ℚ
deriving DecidableEq, Repr

/-- Terminal outcome of the `/analyze` endpoint: an `HTTPException` with a
status code, or an `AnalysisResponse`. -/
inductive AnalyzeOutcome where
  | httpError (status : Nat) (detail : List Char)
  | success (data : List MetricRow) (message : List Char) (processed : Nat)
deriving DecidableEq, Repr

/-- The "no tickers found" message (endpoints.py:68). -/
def noTickersMessage : List Char :=
  ("No valid tickers found in the input text. Try mentioning specific stock "
    ++ "symbols (like AAPL, MSFT) or company names (like Apple, Microsoft).").toList

/-- The HTTP 429 detail (endpoints.py:78). -/
def rateLimitMessage (tickers : List (List Char)) : List Char :=
  "Failed to load data from Yahoo Finance for tickers: ".toList
    ++ joinWith ", ".toList tickers
    ++ (". This may be due to rate limits or API restrictions. "
        ++ "Please try again in a few minutes.").toList

/-- The success message (endpoints.py:82), which embeds the extraction
method. -/
def successMessage (n : Nat) (extraction_method : List Char)
    (tickers : List (List Char)) : List Char :=
  "Successfully analyzed ".toList ++ (Nat.repr n).toList
    ++ " tickers using ".toList ++ extraction_method
    ++ " extraction: ".toList ++ joinWith ", ".toList tickers

/-- Ticker/method resolution (endpoints.py:37-63): `tickers` starts empty with
method `"regex"`; if the LLM is enabled and its (exception-guarded) call
returns a non-empty list, that list is used with method `"LLM"`; otherwise the
regex parser is used with method `"regex"`. -/
def resolve_extraction (llm_enabled : Bool)
    (llm_tickers : Option (List (List Char))) (text : List Char) :
    List (List Char) × List Char :=
  let step1 : List (List Char) :=
    if llm_enabled then
      match llm_tickers with
      | some l => l
      | none => []
    else []
  if step1.isEmpty then (parse_tickers_from_text text, "regex".toList)
  else (step1, "LLM".toList)

/-- `analyze_tickers` (endpoints.py:30-94): reject empty/whitespace-only text
with 400; resolve tickers; empty resolution is a *successful* empty response;
an empty Gateway result for a non-empty ticker list is a 429; otherwise a
success response naming the processed tickers and the extraction method. -/
def analyze_tickers (llm_enabled : Bool)
    (llm_tickers : Option (List (List Char)))
    (process : List (List Char) → List MetricRow) (text : List Char) :
    AnalyzeOutcome :=
  if text.isEmpty || (pyStrip text).isEmpty then
    .httpError 400 "Text input is required".toList
  else
    let r := resolve_extraction llm_enabled llm_tickers text
    if r.1.isEmpty then
      .success [] noTickersMessage 0
    else
      let metric_rows := process r.1
      if metric_rows.isEmpty then
        .httpError 429 (rateLimitMessage r.1)
      else
        .success metric_rows
          (successMessage metric_rows.length r.2 (metric_rows.map MetricRow.ticker))
          metric_rows.length

theorem pyStrip_isEmpty_false_imp (text : List Char)
    (h : (pyStrip text).isEmpty = false) : text.isEmpty = false := by
  cases text with
  | nil => exact absurd h (by decide)
  | cons c cs => rfl

/-- C5: the analyze pipeline distinguishes its three terminal outcomes.
Whitespace-only (or empty) input yields HTTP 400, never a no-match result;
zero resolved symbols yield a *successful* empty result carrying the
"no tickers found" message; a non-empty symbol list for which the Gateway
produces zero rows yields HTTP 429.  The three outcomes are pairwise
distinct. -/
theorem analyze_pipeline_outcomes :
    (∀ (llm_enabled : Bool) (llm_tickers : Option (List (List Char)))
       (process : List (List Char) → List MetricRow) (text : List Char),
      ((pyStrip text).isEmpty = true →
        analyze_tickers llm_enabled llm_tickers process text
          = .httpError 400 "Text input is required".toList) ∧
      ((pyStrip text).isEmpty = false →
        (resolve_extraction llm_enabled llm_tickers text).1 = [] →
        analyze_tickers llm_enabled llm_tickers process text
          = .success [] noTickersMessage 0) ∧
      ((pyStrip text).isEmpty = false →
        (resolve_extraction llm_enabled llm_tickers text).1 ≠ [] →
        process (resolve_extraction llm_enabled llm_tickers text).1 = [] →
        analyze_tickers llm_enabled llm_tickers process text
          = .httpError 429
              (rateLimitMessage (resolve_extraction llm_enabled llm_tickers text).1))) ∧
    (∀ (d d' : List Char) (rows : List MetricRow) (m : List Char) (n : Nat),
      AnalyzeOutcome.httpError 400 d ≠ AnalyzeOutcome.success rows m n ∧
      AnalyzeOutcome.httpError 429 d' ≠ AnalyzeOutcome.success rows m n ∧
      AnalyzeOutcome.httpError 400 d ≠ AnalyzeOutcome.httpError 429 d') := by
  constructor
  · intro llm_enabled llm_tickers process text
    refine ⟨?_, ?_, ?_⟩
    · intro h
      simp [analyze_tickers, h]
    · intro h1 h2
      have htext := pyStrip_isEmpty_false_imp text h1
      simp [analyze_tickers, htext, h1, h2]
    · intro h1 h2 h3
      have htext := pyStrip_isEmpty_false_imp text h1
      have h2' : (resolve_extraction llm_enabled llm_tickers text).1.isEmpty = false :=
        List.isEmpty_eq_false.mpr h2
      simp [analyze_tickers, htext, h1, h2', h3]
  · intro d d' rows m n
    refine ⟨?_, ?_, ?_⟩ <;> intro h <;> exact absurd h (by simp)

theorem analyze_pipeline_outcomes_witness :
    analyze_tickers false none (fun _ => []) "   ".toList
        = .httpError 400 "Text input is required".toList ∧
    analyze_tickers false none (fun _ => []) "a!".toList
        = .success [] noTickersMessage 0 ∧
    analyze_tickers false none (fun _ => []) "NVDA".toList
        = .httpError 429 (rateLimitMessage ["NVDA".toList]) := by
  refine ⟨?_, ?_, ?_⟩
  · exact (analyze_pipeline_outcomes.1 false none (fun _ => []) "   ".toList).1 (by decide)
  · exact (analyze_pipeline_outcomes.1 false none (fun _ => []) "a!".toList).2.1
      (by decide) (by decide)
  · exact (analyze_pipeline_outcomes.1 false none (fun _ => []) "NVDA".toList).2.2
      (by decide) (by decide) rfl

/-- A sample row used to instantiate oracles in concrete checks. -/
def exampleMetricRow : MetricRow :=
  { ticker := "AAPL".toList, marketCap := 1000, sharesOutstanding := 100,
    debt := 200, cash := 50, revenue := 500, ebitda := 100, eps := 2,
    ev := 1150, evRevenueLTM := 23/10, evEbitdaLTM := 23/2,
    evEbitdaNTM := 23/2, peLTM := 5, peNTM := 4 }

/-- C6: for every non-empty analyze request the extraction method resolves to
exactly one of `"LLM"` (delegated) and `"regex"` (pattern-based): a disabled,
raising or empty-result collaborator always resolves to the regex parser's
output with method `"regex"`, a non-empty collaborator result is used as-is
with method `"LLM"`, and on the success path the resolved method is embedded
in the response message. -/
theorem extraction_method_resolution :
    (∀ (llm_enabled : Bool) (llm_tickers : Option (List (List Char)))
       (text : List Char),
      (resolve_extraction llm_enabled llm_tickers text).2 = "LLM".toList ∨
      (resolve_extraction llm_enabled llm_tickers text).2 = "regex".toList) ∧
    (∀ (llm_tickers : Option (List (List Char))) (text : List Char),
      resolve_extraction false llm_tickers text
        = (parse_tickers_from_text text, "regex".toList)) ∧
    (∀ (llm_enabled : Bool) (text : List Char),
      resolve_extraction llm_enabled none text
        = (parse_tickers_from_text text, "regex".toList) ∧
      resolve_extraction llm_enabled (some []) text
        = (parse_tickers_from_text text, "regex".toList)) ∧
    (∀ (l : List (List Char)) (text : List Char), l ≠ [] →
      resolve_extraction true (some l) text = (l, "LLM".toList)) ∧
    (∀ (llm_enabled : Bool) (llm_tickers : Option (List (List Char)))
       (process : List (List Char) → List MetricRow) (text : List Char),
      (pyStrip text).isEmpty = false →
      (resolve_extraction llm_enabled llm_tickers text).1 ≠ [] →
      process (resolve_extraction llm_enabled llm_tickers text).1 ≠ [] →
      ∃ (rows : List MetricRow) (msg : List Char) (n : Nat),
        analyze_tickers llm_enabled llm_tickers process text
            = .success rows msg n ∧
        (resolve_extraction llm_enabled llm_tickers text).2 <:+: msg) := by
  refine ⟨?_, ?_, ?_, ?_, ?_⟩
  · intro llm_enabled llm_tickers text
    unfold resolve_extraction
    cases llm_enabled with
    | false => right; rfl
    | true =>
      cases llm_tickers with
      | none => right; rfl
      | some l =>
        cases l with
        | nil => right; rfl
        | cons w ws => left; rfl
  · intro llm_tickers text; rfl
  · intro llm_enabled text
    cases llm_enabled with
    | false => exact ⟨rfl, rfl⟩
    | true => exact ⟨rfl, rfl⟩
  · intro l text hl
    have hl' : l.isEmpty = false := List.isEmpty_eq_false.mpr hl
    simp [resolve_extraction, hl']
  · intro llm_enabled llm_tickers process text h1 h2 h3
    have htext := pyStrip_isEmpty_false_imp text h1
    have h2' : (resolve_extraction llm_enabled llm_tickers text).1.isEmpty = false :=
      List.isEmpty_eq_false.mpr h2
    have h3' : (process (resolve_extraction llm_enabled llm_tickers text).1).isEmpty
        = false := List.isEmpty_eq_false.mpr h3
    refine ⟨process (resolve_extraction llm_enabled llm_tickers text).1,
      successMessage (process (resolve_extraction llm_enabled llm_tickers text).1).length
        (resolve_extraction llm_enabled llm_tickers text).2
        ((process (resolve_extraction llm_enabled llm_tickers text).1).map
          MetricRow.ticker),
      (process (resolve_extraction llm_enabled llm_tickers text).1).length, ?_, ?_⟩
    · simp [analyze_tickers, htext, h1, h2', h3']
    · refine ⟨"Successfully analyzed ".toList ++ (Nat.repr (process
        (resolve_extraction llm_enabled llm_tickers text).1).length).toList
        ++ " tickers using ".toList,
        " extraction: ".toList ++ joinWith ", ".toList ((process
          (resolve_extraction llm_enabled llm_tickers text).1).map MetricRow.ticker),
        ?_⟩
      simp only [successMessage, List.append_assoc]

theorem extraction_method_resolution_witness :
    (resolve_extraction true (some ["NVDA".toList]) "x".toList
        = (["NVDA".toList], "LLM".toList)) ∧
    (∃ (rows : List MetricRow) (msg : List Char) (n : Nat),
      analyze_tickers true (some ["NVDA".toList]) (fun _ => [exampleMetricRow])
          "x".toList = .success rows msg n ∧
      (resolve_extraction true (some ["NVDA".toList]) "x".toList).2 <:+: msg) := by
  constructor
  · exact extraction_method_resolution.2.2.2.1 ["NVDA".toList] "x".toList (by decide)
  · exact extraction_method_resolution.2.2.2.2 true (some ["NVDA".toList])
      (fun _ => [exampleMetricRow]) "x".toList (by decide) (by decide) (by decide)

/-! ## Conversational Responder: the `/chat` endpoint (endpoints.py:96-170)

The deterministic fallback path lowercases the question and dispatches on
keyword containment in a fixed priority order.  Python's stable `sorted` is
modelled by `List.insertionSort` (stable).  The interpolated reply strings are
abstracted to the structured data each branch computes: the branch identity
and its payload determine the templated sentence verbatim. -/

/-- `str.lower()` (ASCII model). -/
def pyLower (s : List Char) : List Char :=
  s.map Char.toLower

/-- The data computed by the keyword branch that fires
(endpoints.py:134-160). -/
inductive ChatReplyData where
  | capsReply (largest smallest : Option MetricRow)
  | debtReply (info : List (List Char × ℚ × ℚ))
  | revenueReply (rows : List MetricRow)
  | peReply (info : List (List Char × ℚ))
  | peUnavailable
  | genericReply (rows : List MetricRow)
deriving DecidableEq, Repr

/-- The deterministic keyword dispatch of `chat_about_data`
(endpoints.py:132-160): "market cap", then "debt", then "revenue", then
"pe"/"p/e", else generic; first match wins.  `sorted_by_cap[0]`/`[-1]` are
`head?`/`getLast?` (the endpoint only reaches this code with non-empty
`context`). -/
def chat_fallback (question : List Char) (context : List MetricRow) :
    ChatReplyData :=
  let question_lower := pyLower question
  if "market cap".toList <:+: question_lower then
    let sorted_by_cap :=
      List.insertionSort (fun a b => b.marketCap ≤ a.marketCap) context
    .capsReply sorted_by_cap.head? sorted_by_cap.getLast?
  else if "debt".toList <:+: question_lower then
    .debtReply (context.map fun r => (r.ticker, r.debt, r.cash))
  else if "revenue".toList <:+: question_lower then
    .revenueReply (List.insertionSort (fun a b => b.revenue ≤ a.revenue) context)
  else if "pe".toList <:+: question_lower ∨ "p/e".toList <:+: question_lower then
    let pe_info := (context.filter fun r => decide (r.peLTM > 0)).map
        fun r => (r.ticker, r.peLTM)
    if pe_info.isEmpty then .peUnavailable
    else .peReply (List.insertionSort (fun a b => a.2 ≤ b.2) pe_info)
  else
    .genericReply context

/-- Terminal outcome of the `/chat` endpoint. -/
inductive ChatPayload where
  | noData (msg : List Char)
  | llmAnswer (msg : List Char)
  | deterministic (companies : List (List Char)) (data : ChatReplyData)
deriving DecidableEq, Repr

inductive ChatOutcome where
  | httpError (status : Nat) (detail : List Char)
  | reply (payload : ChatPayload)
deriving DecidableEq, Repr

/-- The fixed instructional reply for an empty row context
(endpoints.py:104-106). -/
def noDataReply : List Char :=
  ("I don't have any financial data to analyze yet. Please first run an "
    ++ "analysis with some tickers (like 'analyze AAPL and MSFT') and then "
    ++ "ask me questions about the results.").toList

/-- `chat_about_data` (endpoints.py:96-170): reject empty/whitespace question
with 400; with empty context return the fixed instructional reply; otherwise
delegate to the text-generation collaborator when available, falling through
to the deterministic keyword dispatch. -/
def chat_about_data (llm_enabled : Bool) (llm_answer : Option (List Char))
    (text : List Char) (context : List MetricRow) : ChatOutcome :=
  if text.isEmpty || (pyStrip text).isEmpty then
    .httpError 400 "Question text is required".toList
  else if context.isEmpty then
    .reply (.noData noDataReply)
  else
    match (if llm_enabled then llm_answer else none) with
    | some ans => .reply (.llmAnswer ans)
    | none =>
      .reply (.deterministic (context.map MetricRow.ticker)
        (chat_fallback text context))

/-- C9 (as stated) is false: with an *empty* question text and empty context
the endpoint raises HTTP 400 (the question-text guard runs before the
empty-context check), so it does not return the fixed instructional reply
"for every question text", and it does signal a failure. -/
theorem chat_empty_context_counterexample :
    chat_about_data false none [] []
        = .httpError 400 "Question text is required".toList ∧
    chat_about_data false none [] [] ≠ .reply (.noData noDataReply) := by
  exact ⟨rfl, by decide⟩

/-- C9 (amended): for every question whose text is non-empty after stripping,
the chat endpoint with empty row context returns the fixed instructional
reply — regardless of the question text and of the collaborator's state — and
never signals a failure.  (Empty or whitespace-only question text instead
hits the HTTP 400 input guard, which runs before the context check.) -/
theorem chat_empty_context_amended (llm_enabled : Bool)
    (llm_answer : Option (List Char)) (text : List Char)
    (h : (pyStrip text).isEmpty = false) :
    chat_about_data llm_enabled llm_answer text []
        = .reply (.noData noDataReply) := by
  have htext := pyStrip_isEmpty_false_imp text h
  simp [chat_about_data, htext, h]

theorem chat_empty_context_amended_witness :
    chat_about_data true (some "ignored".toList) "what is the largest?".toList []
        = .reply (.noData noDataReply) :=
  chat_empty_context_amended true (some "ignored".toList)
    "what is the largest?".toList (by decide)

/-- Row `{ticker: "A", marketCap: 100}` of the spec's chat example. -/
def rowChatA : MetricRow :=
  { ticker := "A".toList, marketCap := 100, sharesOutstanding := 0, debt := 0,
    cash := 0, revenue := 0, ebitda := 0, eps := 0, ev := 0, evRevenueLTM := 0,
    evEbitdaLTM := 0, evEbitdaNTM := 0, peLTM := 0, peNTM := 0 }

/-- Row `{ticker: "B", marketCap: 50}` of the spec's chat example. -/
def rowChatB : MetricRow :=
  { ticker := "B".toList, marketCap := 50, sharesOutstanding := 0, debt := 0,
    cash := 0, revenue := 0, ebitda := 0, eps := 0, ev := 0, evRevenueLTM := 0,
    evEbitdaLTM := 0, evEbitdaNTM := 0, peLTM := 0, peNTM := 0 }

/-- C8: the deterministic chat path tests the fixed keyword categories in the
priority order "market cap" → "debt" → "revenue" → "pe"/"p/e" → generic, and
the first matching category alone determines the reply; the revenue category
lists a permutation of the rows sorted descending by revenue; the P/E
category lists exactly the positive-P/E rows sorted ascending; and on rows
`[{A, 100}, {B, 50}]` a "market cap" question names `A` as largest and `B`
as smallest. -/
theorem chat_keyword_dispatch :
    (∀ (q : List Char) (rows : List MetricRow),
      ("market cap".toList <:+: pyLower q →
        chat_fallback q rows = .capsReply
          (List.insertionSort (fun a b => b.marketCap ≤ a.marketCap) rows).head?
          (List.insertionSort (fun a b => b.marketCap ≤ a.marketCap) rows).getLast?) ∧
      (¬ "market cap".toList <:+: pyLower q → "debt".toList <:+: pyLower q →
        chat_fallback q rows
          = .debtReply (rows.map fun r => (r.ticker, r.debt, r.cash))) ∧
      (¬ "market cap".toList <:+: pyLower q → ¬ "debt".toList <:+: pyLower q →
        "revenue".toList <:+: pyLower q →
        chat_fallback q rows = .revenueReply
          (List.insertionSort (fun a b => b.revenue ≤ a.revenue) rows)) ∧
      (¬ "market cap".toList <:+: pyLower q → ¬ "debt".toList <:+: pyLower q →
        ¬ "revenue".toList <:+: pyLower q →
        ("pe".toList <:+: pyLower q ∨ "p/e".toList <:+: pyLower q) →
        chat_fallback q rows =
          (if ((rows.filter fun r => decide (r.peLTM > 0)).map
              fun r => (r.ticker, r.peLTM)).isEmpty then .peUnavailable
           else .peReply (List.insertionSort (fun a b => a.2 ≤ b.2)
              ((rows.filter fun r => decide (r.peLTM > 0)).map
                fun r => (r.ticker, r.peLTM))))) ∧
      (¬ "market cap".toList <:+: pyLower q → ¬ "debt".toList <:+: pyLower q →
        ¬ "revenue".toList <:+: pyLower q →
        ¬ ("pe".toList <:+: pyLower q ∨ "p/e".toList <:+: pyLower q) →
        chat_fallback q rows = .genericReply rows)) ∧
    (∀ rows : List MetricRow,
      List.Sorted (fun a b => b.marketCap ≤ a.marketCap)
        (List.insertionSort (fun a b => b.marketCap ≤ a.marketCap) rows) ∧
      (List.insertionSort (fun a b => b.marketCap ≤ a.marketCap) rows).Perm rows ∧
      List.Sorted (fun a b => b.revenue ≤ a.revenue)
        (List.insertionSort (fun a b => b.revenue ≤ a.revenue) rows) ∧
      (List.insertionSort (fun a b => b.revenue ≤ a.revenue) rows).Perm rows) ∧
    (∀ rows : List MetricRow,
      List.Sorted (fun a b : List Char × ℚ => a.2 ≤ b.2)
        (List.insertionSort (fun a b => a.2 ≤ b.2)
          ((rows.filter fun r => decide (r.peLTM > 0)).map
            fun r => (r.ticker, r.peLTM))) ∧
      (List.insertionSort (fun a b => a.2 ≤ b.2)
          ((rows.filter fun r => decide (r.peLTM > 0)).map
            fun r => (r.ticker, r.peLTM))).Perm
        ((rows.filter fun r => decide (r.peLTM > 0)).map
          fun r => (r.ticker, r.peLTM)) ∧
      (∀ x ∈ List.insertionSort (fun a b => a.2 ≤ b.2)
          ((rows.filter fun r => decide (r.peLTM > 0)).map
            fun r => (r.ticker, r.peLTM)), 0 < x.2)) ∧
    chat_fallback "market cap".toList [rowChatA, rowChatB]
      = .capsReply (some rowChatA) (some rowChatB) := by
  refine ⟨?_, ?_, ?_, by decide⟩
  · intro q rows
    refine ⟨?_, ?_, ?_, ?_, ?_⟩
    · intro h1
      unfold chat_fallback
      rw [if_pos h1]
    · intro h1 h2
      unfold chat_fallback
      rw [if_neg h1, if_pos h2]
    · intro h1 h2 h3
      unfold chat_fallback
      rw [if_neg h1, if_neg h2, if_pos h3]
    · intro h1 h2 h3 h4
      unfold chat_fallback
      rw [if_neg h1, if_neg h2, if_neg h3, if_pos h4]
    · intro h1 h2 h3 h4
      unfold chat_fallback
      rw [if_neg h1, if_neg h2, if_neg h3, if_neg h4]
  · intro rows
    haveI hcapT : IsTotal MetricRow (fun a b => b.marketCap ≤ a.marketCap) :=
      ⟨fun a b => le_total b.marketCap a.marketCap⟩
    haveI hcapTr : IsTrans MetricRow (fun a b => b.marketCap ≤ a.marketCap) :=
      ⟨fun _ _ _ hab hbc => le_trans hbc hab⟩
    haveI hrevT : IsTotal MetricRow (fun a b => b.revenue ≤ a.revenue) :=
      ⟨fun a b => le_total b.revenue a.revenue⟩
    haveI hrevTr : IsTrans MetricRow (fun a b => b.revenue ≤ a.revenue) :=
      ⟨fun _ _ _ hab hbc => le_trans hbc hab⟩
    exact ⟨List.sorted_insertionSort _ rows, List.perm_insertionSort _ rows,
      List.sorted_insertionSort _ rows, List.perm_insertionSort _ rows⟩
  · intro rows
    haveI hpeT : IsTotal (List Char × ℚ) (fun a b => a.2 ≤ b.2) :=
      ⟨fun a b => le_total a.2 b.2⟩
    haveI hpeTr : IsTrans (List Char × ℚ) (fun a b => a.2 ≤ b.2) :=
      ⟨fun _ _ _ hab hbc => le_trans hab hbc⟩
    refine ⟨List.sorted_insertionSort _ _, List.perm_insertionSort _ _, ?_⟩
    intro x hx
    have hx' := (List.perm_insertionSort (fun a b : List Char × ℚ => a.2 ≤ b.2)
      _).mem_iff.mp hx
    obtain ⟨r, hr, rfl⟩ := List.mem_map.mp hx'
    have hpos := (List.mem_filter.mp hr).2
    simpa [gt_iff_lt, decide_eq_true_eq] using hpos

theorem chat_keyword_dispatch_witness :
    chat_fallback "compare market cap and debt".toList [rowChatA, rowChatB]
      = .capsReply
        (List.insertionSort (fun a b => b.marketCap ≤ a.marketCap)
          [rowChatA, rowChatB]).head?
        (List.insertionSort (fun a b => b.marketCap ≤ a.marketCap)
          [rowChatA, rowChatB]).getLast? ∧
    chat_fallback "how much debt?".toList [rowChatA, rowChatB]
      = .debtReply ([rowChatA, rowChatB].map fun r => (r.ticker, r.debt, r.cash)) := by
  constructor
  · exact (chat_keyword_dispatch.1 "compare market cap and debt".toList
      [rowChatA, rowChatB]).1 (by decide)
  · exact (chat_keyword_dispatch.1 "how much debt?".toList
      [rowChatA, rowChatB]).2.1 (by decide) (by decide)
